import Mathlib

/-
Shallow embedding of the OTTO "little planet" projection engine.

Source material:
  * the raster evaluator: the projection worker (onmessage, processChunk,
    projection, getPointOnSphere, axisRotate, getPixOnImg);
  * the fragment evaluator: the WebGL fragment shader embedded in script.js
    (computeRotationMatrix, projectToSphere, getPixOnImg, sampleTexture, main)
    together with the uniform values script.js feeds it
    (uResolution = (width, height), uRotation = (alpha, beta, gamma),
     uOffset = (offsetHor, offsetVer), uRadius = min(h, w) / 10 * scale).

JS numbers are embedded as real numbers; JS Math.round is floor (x + 1/2);
the JS remainder operator is Int.tmod (sign of the dividend); Math.atan2 is
the complex argument of x + y i, with range (-pi, pi].  GLSL mat3 constructor
semantics are column-major: the nine scalar arguments fill the three columns
in order, which glslMat3 below reproduces.
-/

open Real

/-- JS Math.round on a real argument: round half toward positive infinity. -/
noncomputable def jround (x : ℝ) : ℤ := ⌊x + 1/2⌋

/-- JS Math.atan2 (and GLSL atan(y, x)) on reals: the argument of the complex
number x + y i, lying in the interval (-pi, pi]. -/
noncomputable def atan2 (y x : ℝ) : ℝ := Complex.arg ⟨x, y⟩

/-- A 3-component vector of JS numbers (a JS array [x, y, z] or a GLSL vec3). -/
@[ext] structure Vec3 where
  x : ℝ
  y : ℝ
  z : ℝ

/-- A 3 by 3 matrix of JS numbers; field aij is the entry at row i, column j,
matching the worker's nested-array layout rot_mat[i][j]. -/
@[ext] structure Mat3 where
  a00 : ℝ
  a01 : ℝ
  a02 : ℝ
  a10 : ℝ
  a11 : ℝ
  a12 : ℝ
  a20 : ℝ
  a21 : ℝ
  a22 : ℝ

/-- Matrix product of two 3 by 3 matrices. -/
noncomputable def matMul (A B : Mat3) : Mat3 where
  a00 := A.a00 * B.a00 + A.a01 * B.a10 + A.a02 * B.a20
  a01 := A.a00 * B.a01 + A.a01 * B.a11 + A.a02 * B.a21
  a02 := A.a00 * B.a02 + A.a01 * B.a12 + A.a02 * B.a22
  a10 := A.a10 * B.a00 + A.a11 * B.a10 + A.a12 * B.a20
  a11 := A.a10 * B.a01 + A.a11 * B.a11 + A.a12 * B.a21
  a12 := A.a10 * B.a02 + A.a11 * B.a12 + A.a12 * B.a22
  a20 := A.a20 * B.a00 + A.a21 * B.a10 + A.a22 * B.a20
  a21 := A.a20 * B.a01 + A.a21 * B.a11 + A.a22 * B.a21
  a22 := A.a20 * B.a02 + A.a21 * B.a12 + A.a22 * B.a22

/-- Transpose of a 3 by 3 matrix. -/
noncomputable def matTranspose (A : Mat3) : Mat3 :=
  ⟨A.a00, A.a10, A.a20, A.a01, A.a11, A.a21, A.a02, A.a12, A.a22⟩

/-- The identity 3 by 3 matrix. -/
noncomputable def idMat3 : Mat3 := ⟨1, 0, 0, 0, 1, 0, 0, 0, 1⟩

/-- The worker's rot_mat, computed in onmessage from (alpha, beta, gamma):
an intrinsic Z(gamma) Y(beta) X(alpha) Euler rotation, stored row-major. -/
noncomputable def rot_mat (alpha beta gamma : ℝ) : Mat3 where
  a00 := cos gamma * cos beta
  a01 := cos gamma * sin beta * sin alpha - sin gamma * cos alpha
  a02 := cos gamma * sin beta * cos alpha + sin gamma * sin alpha
  a10 := sin gamma * cos beta
  a11 := sin gamma * sin beta * sin alpha + cos gamma * cos alpha
  a12 := sin gamma * sin beta * cos alpha - cos gamma * sin alpha
  a20 := -sin beta
  a21 := cos beta * sin alpha
  a22 := cos beta * cos alpha

/-- The elementary rotation about the x axis by angle a (the spec's X(alpha)
factor of the Euler composition). -/
noncomputable def rotX (a : ℝ) : Mat3 :=
  ⟨1, 0, 0, 0, cos a, -sin a, 0, sin a, cos a⟩

/-- The elementary rotation about the y axis by angle b (the spec's Y(beta)
factor of the Euler composition). -/
noncomputable def rotY (b : ℝ) : Mat3 :=
  ⟨cos b, 0, sin b, 0, 1, 0, -sin b, 0, cos b⟩

/-- The elementary rotation about the z axis by angle g (the spec's Z(gamma)
factor of the Euler composition). -/
noncomputable def rotZ (g : ℝ) : Mat3 :=
  ⟨cos g, -sin g, 0, sin g, cos g, 0, 0, 0, 1⟩

/-- Worker getPointOnSphere: inverse stereographic unprojection of a plane
point onto the sphere of radius r. -/
noncomputable def getPointOnSphere (point : Vec3) (r : ℝ) : Vec3 :=
  let k := 2 * r ^ 2 / (point.x ^ 2 + point.y ^ 2 + r ^ 2)
  ⟨k * point.x, k * point.y, (k - 1) * r⟩

/-- Worker axisRotate: apply a 3 by 3 matrix to a point (matrix times vector). -/
noncomputable def axisRotate (point : Vec3) (rm : Mat3) : Vec3 where
  x := rm.a00 * point.x + rm.a01 * point.y + rm.a02 * point.z
  y := rm.a10 * point.x + rm.a11 * point.y + rm.a12 * point.z
  z := rm.a20 * point.x + rm.a21 * point.y + rm.a22 * point.z

/-- Worker getPixOnImg: map a rotated sphere point to an integer source-pixel
coordinate (row, col); z is clamped above at r, and the JS remainder operator
is Int.tmod. -/
noncomputable def getPixOnImg (point : Vec3) (r : ℝ) (h_img w_img : ℕ) : ℤ × ℤ :=
  let z := if point.z > r then r else point.z
  let row := arccos (z / r) / π
  let col := atan2 point.y point.x / (2 * π) + 1/2
  (Int.tmod (jround (row * h_img)) h_img, Int.tmod (jround (col * w_img)) w_img)

/-- Worker projection: full per-pixel mapping from output pixel (row, col) to
source pixel, with the plane point built as
x = row + (offset_ver - 0.5) * h_proj, y = col + (offset_hor - 0.5) * w_proj. -/
noncomputable def projection (pix_proj : ℕ × ℕ) (r : ℝ) (h_img w_img h_proj w_proj : ℕ)
    (offset_hor offset_ver : ℝ) (rm : Mat3) : ℤ × ℤ :=
  let x : ℝ := pix_proj.1 + (offset_ver - 1/2) * h_proj
  let y : ℝ := pix_proj.2 + (offset_hor - 1/2) * w_proj
  let Q : Vec3 := ⟨x, y, 0⟩
  let P := axisRotate (getPointOnSphere Q r) rm
  getPixOnImg P r h_img w_img

/-- The projection radius both evaluators use: min(h, w) / 10 * scale. -/
noncomputable def radius (h_proj w_proj : ℕ) (scale : ℝ) : ℝ :=
  (min h_proj w_proj : ℕ) / 10 * scale

/-- A source image as the worker receives it: width, height and a flat
row-major RGBA byte buffer addressed by integer index (reads outside
[0, width * height * 4) see no stored data and contribute 0, matching the
undefined-to-zero coercion of a JS typed-array copy). -/
structure SrcImage where
  width : ℕ
  height : ℕ
  data : ℤ → ℕ

/-- One channel of one output pixel of the raster evaluator: the per-pixel
copy of processChunk, result[(y * w_proj + x) * 4 + c] =
imageData.data[(pix.1 * width + pix.2) * 4 + c]. -/
noncomputable def outputPixel (img : SrcImage) (h_proj w_proj : ℕ)
    (scale alpha beta gamma offset_hor offset_ver : ℝ) (y x c : ℕ) : ℕ :=
  let r := radius h_proj w_proj scale
  let pix := projection (y, x) r img.height img.width h_proj w_proj
    offset_hor offset_ver (rot_mat alpha beta gamma)
  img.data ((pix.1 * img.width + pix.2) * 4 + c)

/-- The uniform solid-red source image of the spec's concrete scenario:
every in-range pixel is (255, 0, 0, 255). -/
def solidRed (w h : ℕ) : SrcImage where
  width := w
  height := h
  data := fun i =>
    if 0 ≤ i ∧ i < (w * h) * 4 then
      if i % 4 = 0 ∨ i % 4 = 3 then 255 else 0
    else 0

/-- Worker chunking: chunkSize = floor (h_proj / 10). -/
def chunkSize (h_proj : ℕ) : ℕ := h_proj / 10

/-- Worker chunking: startY of band i. -/
def chunkStart (h_proj i : ℕ) : ℕ := i * chunkSize h_proj

/-- Worker chunking: endY of band i; the last band (i = 9) absorbs the
remainder and ends at h_proj. -/
def chunkEnd (h_proj i : ℕ) : ℕ := if i = 9 then h_proj else (i + 1) * chunkSize h_proj

/-- A message the worker posts: a progress notification carrying endY / h_proj,
or the final done notification. -/
inductive WorkerMsg where
  | progress (value : ℚ)
  | done
deriving DecidableEq

/-- The progress values one raster evaluation posts, in order: endY / h_proj
after each of the 10 bands. -/
def progressValues (h_proj : ℕ) : List ℚ :=
  (List.range 10).map fun i => (chunkEnd h_proj i : ℚ) / (h_proj : ℚ)

/-- The full ordered message stream of one raster evaluation: one progress
message per band, then the single done message. -/
def workerMessages (h_proj : ℕ) : List WorkerMsg :=
  ((progressValues h_proj).map WorkerMsg.progress) ++ [WorkerMsg.done]

/-- GLSL clamp(v, lo, hi) = min(max(v, lo), hi). -/
noncomputable def glslClamp (v lo hi : ℝ) : ℝ := min (max v lo) hi

/-- GLSL mat3 constructor: the nine scalar arguments fill the matrix in
column-major order (arguments 0..2 are the first column, and so on). -/
noncomputable def glslMat3 (m0 m1 m2 m3 m4 m5 m6 m7 m8 : ℝ) : Mat3 :=
  ⟨m0, m3, m6, m1, m4, m7, m2, m5, m8⟩

/-- Shader computeRotationMatrix: builds mat3 from uRotation =
(alpha, beta, gamma) with the argument list written row-major in the source;
GLSL column-major filling makes the resulting matrix the transpose of the
worker's rot_mat. -/
noncomputable def computeRotationMatrix (rotation : Vec3) : Mat3 :=
  let cosA := cos rotation.x
  let sinA := sin rotation.x
  let cosB := cos rotation.y
  let sinB := sin rotation.y
  let cosG := cos rotation.z
  let sinG := sin rotation.z
  glslMat3
    (cosG * cosB)
    (cosG * sinB * sinA - sinG * cosA)
    (cosG * sinB * cosA + sinG * sinA)
    (sinG * cosB)
    (sinG * sinB * sinA + cosG * cosA)
    (sinG * sinB * cosA - cosG * sinA)
    (-sinB)
    (cosB * sinA)
    (cosB * cosA)

/-- Shader projectToSphere: pixel and res are (horizontal, vertical) vec2
values; the plane point is adjusted = pixel + (uOffset - 0.5) * uResolution
and the radius is min(uResolution.x, uResolution.y) / 10 * uScale. -/
noncomputable def projectToSphere (pixel res offset : ℝ × ℝ) (scale : ℝ) : Vec3 :=
  let ax := pixel.1 + (offset.1 - 1/2) * res.1
  let ay := pixel.2 + (offset.2 - 1/2) * res.2
  let r := min res.1 res.2 / 10 * scale
  let k := 2 * r * r / ((ax * ax + ay * ay) + r * r)
  ⟨k * ax, k * ay, (k - 1) * r⟩

/-- Shader getPixOnImg: z is clamped symmetrically to [-r, r]; the result is
the continuous texture coordinate (col, row). -/
noncomputable def shaderGetPixOnImg (point : Vec3) (r : ℝ) : ℝ × ℝ :=
  let z := glslClamp point.z (-r) r
  let row := arccos (z / r) / π
  let col := atan2 point.y point.x / (2 * π) + 1/2
  (col, row)

/-- Shader main, up to the texture fetch: the mapped texture coordinate of the
fragment at vTextureCoord, with pixCoord = vTextureCoord * uResolution. -/
noncomputable def shaderImgCoord (vTex res offset : ℝ × ℝ) (rotation : Vec3)
    (scale r : ℝ) : ℝ × ℝ :=
  let pixCoord := (vTex.1 * res.1, vTex.2 * res.2)
  let spherePoint := projectToSphere pixCoord res offset scale
  let rotMat := computeRotationMatrix rotation
  let rotatedPoint := axisRotate spherePoint rotMat
  shaderGetPixOnImg rotatedPoint r

/-- Shader main's discard condition: the mapped coordinate is below 0 or
above 1 on either axis. -/
def shaderDiscards (coord : ℝ × ℝ) : Prop :=
  coord.1 < 0 ∨ coord.2 < 0 ∨ 1 < coord.1 ∨ 1 < coord.2

/-- Shader sampleTexture: 8 by 8 box-filtered supersampling around coord, each
sample offset by (i, j) / 8 - 0.5 texels, accumulated and divided by 64.
A texture is a function from continuous coordinates to an RGBA color. -/
noncomputable def sampleTexture (tex : ℝ × ℝ → Fin 4 → ℝ) (res coord : ℝ × ℝ) :
    Fin 4 → ℝ := fun ch =>
  (∑ i ∈ Finset.range 8, ∑ j ∈ Finset.range 8,
    tex (coord.1 + ((i : ℝ) * (1/8) - 1/2) / res.1,
         coord.2 + ((j : ℝ) * (1/8) - 1/2) / res.2) ch) / 64

open Classical in
/-- Shader main: discard (none) when the mapped coordinate leaves the unit
square, otherwise the supersampled texture color at that coordinate. -/
noncomputable def shaderMain (tex : ℝ × ℝ → Fin 4 → ℝ) (vTex res offset : ℝ × ℝ)
    (rotation : Vec3) (scale r : ℝ) : Option (Fin 4 → ℝ) :=
  let imgCoord := shaderImgCoord vTex res offset rotation scale r
  if shaderDiscards imgCoord then none else some (sampleTexture tex res imgCoord)

/-- The spec's step-4 row formula exactly as the spec writes it:
sourceRow = round(acos(z/r)/pi) mod sourceHeight, with z clamped above at r
as in the CPU variant.  This definition follows the spec's words, to be
compared against getPixOnImg, which follows the code. -/
noncomputable def specStep4RowLiteral (point : Vec3) (r : ℝ) (h_img : ℕ) : ℤ :=
  let z := if point.z > r then r else point.z
  Int.tmod (jround (arccos (z / r) / π)) h_img

/-- The spec's step-4 column formula exactly as the spec writes it:
sourceCol = round(atan2(y,x)/(2 pi) + 0.5) mod sourceWidth.  This definition
follows the spec's words, to be compared against getPixOnImg. -/
noncomputable def specStep4ColLiteral (point : Vec3) (w_img : ℕ) : ℤ :=
  Int.tmod (jround (atan2 point.y point.x / (2 * π) + 1/2)) w_img

/-- The amended step-4 row formula: the continuous latitude fraction is scaled
by sourceHeight before rounding, sourceRow = round((acos(z/r)/pi) * sourceHeight)
mod sourceHeight. -/
noncomputable def specStep4RowScaled (point : Vec3) (r : ℝ) (h_img : ℕ) : ℤ :=
  let z := if point.z > r then r else point.z
  Int.tmod (jround (arccos (z / r) / π * h_img)) h_img

/-- The amended step-4 column formula: the continuous longitude fraction is
scaled by sourceWidth before rounding, sourceCol =
round((atan2(y,x)/(2 pi) + 0.5) * sourceWidth) mod sourceWidth. -/
noncomputable def specStep4ColScaled (point : Vec3) (w_img : ℕ) : ℤ :=
  Int.tmod (jround ((atan2 point.y point.x / (2 * π) + 1/2) * w_img)) w_img

/-
Helper lemmas shared by the claim theorems.
-/

theorem atan2_le_pi (y x : ℝ) : atan2 y x ≤ π := Complex.arg_le_pi _

theorem neg_pi_lt_atan2 (y x : ℝ) : -π < atan2 y x := Complex.neg_pi_lt_arg _

theorem atan2_pos_imag (t : ℝ) (ht : 0 < t) : atan2 t 0 = π / 2 := by
  unfold atan2
  have h : (⟨0, t⟩ : ℂ) = (t : ℂ) * Complex.I := by simp [Complex.ext_iff]
  rw [h, Complex.arg_real_mul _ ht, Complex.arg_I]

theorem atan2_zero_nonneg (t : ℝ) (ht : 0 ≤ t) : atan2 0 t = 0 := by
  unfold atan2
  have h : (⟨t, 0⟩ : ℂ) = (t : ℂ) := by simp [Complex.ext_iff]
  rw [h, Complex.arg_ofReal_of_nonneg ht]

theorem jround_nonneg {x : ℝ} (h : 0 ≤ x) : 0 ≤ jround x := by
  rw [jround, Int.floor_nonneg]; linarith

theorem jround_le_natCast {x : ℝ} {n : ℕ} (h : x ≤ n) : jround x ≤ n := by
  rw [jround, Int.floor_le_iff]; push_cast; linarith

theorem tmod_mem {a : ℤ} {n : ℕ} (ha : 0 ≤ a) (hn : 0 < n) :
    0 ≤ Int.tmod a n ∧ Int.tmod a n < n :=
  ⟨Int.tmod_nonneg _ ha, Int.tmod_lt_of_pos a (by exact_mod_cast hn)⟩

theorem rowFrac_mem (u r : ℝ) : 0 ≤ arccos (u / r) / π ∧ arccos (u / r) / π ≤ 1 := by
  constructor
  · exact div_nonneg (Real.arccos_nonneg _) Real.pi_pos.le
  · rw [div_le_one Real.pi_pos]
    exact Real.arccos_le_pi _

theorem colFrac_mem (y x : ℝ) :
    0 ≤ atan2 y x / (2 * π) + 1/2 ∧ atan2 y x / (2 * π) + 1/2 ≤ 1 := by
  have h2pi : (0 : ℝ) < 2 * π := by positivity
  have h1 : -π / (2 * π) < atan2 y x / (2 * π) :=
    div_lt_div_of_pos_right (neg_pi_lt_atan2 y x) h2pi
  have h2 : atan2 y x / (2 * π) ≤ π / (2 * π) :=
    (div_le_div_iff_of_pos_right h2pi).mpr (atan2_le_pi y x)
  have h3 : -π / (2 * π) = -(1/2) := by field_simp; ring
  have h4 : π / (2 * π) = 1/2 := by field_simp; ring
  rw [h3] at h1
  rw [h4] at h2
  constructor <;> linarith

theorem getPixOnImg_mem (point : Vec3) (r : ℝ) (h_img w_img : ℕ)
    (hh : 0 < h_img) (hw : 0 < w_img) :
    0 ≤ (getPixOnImg point r h_img w_img).1 ∧ (getPixOnImg point r h_img w_img).1 < h_img ∧
    0 ≤ (getPixOnImg point r h_img w_img).2 ∧ (getPixOnImg point r h_img w_img).2 < w_img := by
  simp only [getPixOnImg]
  set z := if point.z > r then r else point.z with hz
  obtain ⟨hr0, hr1⟩ := rowFrac_mem z r
  obtain ⟨hc0, hc1⟩ := colFrac_mem point.y point.x
  have hrow0 : (0 : ℝ) ≤ arccos (z / r) / π * h_img := by positivity
  have hrow1 : arccos (z / r) / π * h_img ≤ (h_img : ℝ) := by
    calc arccos (z / r) / π * h_img ≤ 1 * h_img := by gcongr
    _ = h_img := one_mul _
  have hcol0 : (0 : ℝ) ≤ (atan2 point.y point.x / (2 * π) + 1/2) * w_img :=
    mul_nonneg hc0 (by positivity)
  have hcol1 : (atan2 point.y point.x / (2 * π) + 1/2) * w_img ≤ (w_img : ℝ) := by
    calc (atan2 point.y point.x / (2 * π) + 1/2) * w_img ≤ 1 * w_img := by gcongr
    _ = w_img := one_mul _
  obtain ⟨h1, h2⟩ := tmod_mem (jround_nonneg hrow0) hh
  obtain ⟨h3, h4⟩ := tmod_mem (jround_nonneg hcol0) hw
  exact ⟨h1, h2, h3, h4⟩

theorem shaderGetPixOnImg_mem (point : Vec3) (r : ℝ) :
    0 ≤ (shaderGetPixOnImg point r).1 ∧ (shaderGetPixOnImg point r).1 ≤ 1 ∧
    0 ≤ (shaderGetPixOnImg point r).2 ∧ (shaderGetPixOnImg point r).2 ≤ 1 := by
  simp only [shaderGetPixOnImg]
  obtain ⟨h1, h2⟩ := colFrac_mem point.y point.x
  obtain ⟨h3, h4⟩ := rowFrac_mem (glslClamp point.z (-r) r) r
  exact ⟨h1, h2, h3, h4⟩

theorem index_in_bounds {p1 p2 : ℤ} {h_img w_img : ℕ}
    (h1 : 0 ≤ p1) (h2 : p1 < h_img) (h3 : 0 ≤ p2) (h4 : p2 < w_img) :
    0 ≤ (p1 * w_img + p2) * 4 ∧ (p1 * w_img + p2) * 4 + 3 < (h_img * w_img) * 4 := by
  have hw0 : (0 : ℤ) ≤ (w_img : ℤ) := by positivity
  have hub : p1 * w_img ≤ ((h_img : ℤ) - 1) * w_img :=
    mul_le_mul_of_nonneg_right (by omega) hw0
  constructor
  · nlinarith
  · nlinarith

theorem axisRotate_matMul (p : Vec3) (A B : Mat3) :
    axisRotate (axisRotate p B) A = axisRotate p (matMul A B) := by
  simp only [axisRotate, matMul]
  ext <;> ring

theorem axisRotate_id (p : Vec3) : axisRotate p idMat3 = p := by
  simp [axisRotate, idMat3]

theorem rot_mat_zero : rot_mat 0 0 0 = idMat3 := by
  simp [rot_mat, idMat3]

theorem computeRotationMatrix_zero : computeRotationMatrix ⟨0, 0, 0⟩ = idMat3 := by
  simp [computeRotationMatrix, glslMat3, idMat3]

theorem rot_mat_eq_euler (alpha beta gamma : ℝ) :
    rot_mat alpha beta gamma = matMul (matMul (rotZ gamma) (rotY beta)) (rotX alpha) := by
  ext <;> simp only [matMul, rot_mat, rotX, rotY, rotZ] <;> ring

theorem rot_mat_transpose_mul (alpha beta gamma : ℝ) :
    matMul (matTranspose (rot_mat alpha beta gamma)) (rot_mat alpha beta gamma) = idMat3 := by
  have ha := sin_sq_add_cos_sq alpha
  have hb := sin_sq_add_cos_sq beta
  have hg := sin_sq_add_cos_sq gamma
  refine Mat3.ext ?_ ?_ ?_ ?_ ?_ ?_ ?_ ?_ ?_ <;>
    simp only [matMul, matTranspose, rot_mat, idMat3]
  · linear_combination (cos beta ^ 2) * hg + hb
  · linear_combination (cos beta * sin beta * sin alpha) * hg
  · linear_combination (cos beta * sin beta * cos alpha) * hg
  · linear_combination (cos beta * sin beta * sin alpha) * hg
  · linear_combination (sin beta ^ 2 * sin alpha ^ 2 + cos alpha ^ 2) * hg +
      (sin alpha ^ 2) * hb + ha
  · linear_combination (sin alpha * cos alpha * (sin beta ^ 2 - 1)) * hg +
      (sin alpha * cos alpha) * hb
  · linear_combination (cos beta * sin beta * cos alpha) * hg
  · linear_combination (sin alpha * cos alpha * (sin beta ^ 2 - 1)) * hg +
      (sin alpha * cos alpha) * hb
  · linear_combination (sin beta ^ 2 * cos alpha ^ 2 + sin alpha ^ 2) * hg +
      (cos alpha ^ 2) * hb + ha

theorem inverse_euler_eq_transpose (alpha beta gamma : ℝ) :
    matMul (matMul (rotX (-alpha)) (rotY (-beta))) (rotZ (-gamma)) =
      matTranspose (rot_mat alpha beta gamma) := by
  ext <;> simp only [matMul, matTranspose, rot_mat, rotX, rotY, rotZ, cos_neg, sin_neg] <;> ring

/-
Claim theorems.
-/

/-- Claim C8: for every angle triple and every 3D point, applying the rotation
matrix M(alpha, beta, gamma) and then its inverse built from the negated angles
in reverse composition order X(-alpha) Y(-beta) Z(-gamma) returns the point
exactly; equivalently M is orthonormal, transpose(M) * M = identity. -/
theorem rotation_round_trip_orthonormal (alpha beta gamma : ℝ) (p : Vec3) :
    axisRotate (axisRotate p (rot_mat alpha beta gamma))
      (matMul (matMul (rotX (-alpha)) (rotY (-beta))) (rotZ (-gamma))) = p ∧
    matMul (matTranspose (rot_mat alpha beta gamma)) (rot_mat alpha beta gamma) = idMat3 := by
  refine ⟨?_, rot_mat_transpose_mul alpha beta gamma⟩
  rw [inverse_euler_eq_transpose, axisRotate_matMul, rot_mat_transpose_mul, axisRotate_id]

/-- Claim C9: for every texture coordinate and every source texture that is a
single uniform color c, the fragment evaluator's 8 by 8 supersampling returns
exactly c: averaging 64 identical samples is the identity. -/
theorem supersample_uniform_identity (c : Fin 4 → ℝ) (res coord : ℝ × ℝ) :
    sampleTexture (fun _ => c) res coord = c := by
  funext ch
  simp only [sampleTexture, Finset.sum_const, Finset.card_range, nsmul_eq_mul]
  ring

/-- Claim C5: for every outputHeight the raster evaluator partitions the output
rows into 10 contiguous bands of height floor(outputHeight/10), the last band
absorbing the remainder, processed in order with one progress value
bandEndRow / outputHeight each; for outputHeight 600 the progress values are
exactly 0.1, 0.2, ..., 1.0, each before the done notification. -/
theorem band_partition_and_progress (h_proj i : ℕ) (hi : i < 9) :
    chunkStart h_proj 0 = 0 ∧
    chunkEnd h_proj i = chunkStart h_proj (i + 1) ∧
    chunkEnd h_proj i - chunkStart h_proj i = h_proj / 10 ∧
    chunkEnd h_proj 9 = h_proj ∧
    workerMessages 600 =
      [.progress (1/10), .progress (2/10), .progress (3/10), .progress (4/10),
       .progress (5/10), .progress (6/10), .progress (7/10), .progress (8/10),
       .progress (9/10), .progress 1, .done] := by
  refine ⟨by simp [chunkStart], ?_, ?_, by simp [chunkEnd], ?_⟩
  · unfold chunkEnd chunkStart
    rw [if_neg (by omega)]
  · unfold chunkEnd chunkStart chunkSize
    rw [if_neg (by omega), Nat.succ_mul]
    omega
  · norm_num [workerMessages, progressValues, chunkEnd, chunkSize, List.range_succ]

/-- Witness for C5 at outputHeight 600, band 0. -/
theorem band_partition_and_progress_witness :
    chunkStart 600 0 = 0 ∧
    chunkEnd 600 0 = chunkStart 600 (0 + 1) ∧
    chunkEnd 600 0 - chunkStart 600 0 = 600 / 10 ∧
    chunkEnd 600 9 = 600 ∧
    workerMessages 600 =
      [.progress (1/10), .progress (2/10), .progress (3/10), .progress (4/10),
       .progress (5/10), .progress (6/10), .progress (7/10), .progress (8/10),
       .progress (9/10), .progress 1, .done] :=
  band_partition_and_progress 600 0 (by norm_num)

/-- Counterexample to claim C6 as stated: at outputHeight 5 (which satisfies
the claim's bound 1 ≤ outputHeight) chunkSize is 0, the first nine progress
values are all 0, so the sequence is not strictly increasing and its values
are not all in (0, 1]. -/
theorem progress_claim_fails_at_five :
    1 ≤ 5 ∧
    ¬ ((progressValues 5).Chain' (· < ·) ∧ ∀ v ∈ progressValues 5, 0 < v ∧ v ≤ 1) := by
  refine ⟨by norm_num, ?_⟩
  rintro ⟨hchain, hmem⟩
  have hval : progressValues 5 = [0, 0, 0, 0, 0, 0, 0, 0, 0, 1] := by
    norm_num [progressValues, chunkEnd, chunkSize, List.range_succ]
  have h0 : (0 : ℚ) ∈ progressValues 5 := by
    rw [hval]; simp
  exact absurd (hmem 0 h0).1 (lt_irrefl 0)

/-- Claim C6 (amended: outputHeight at least 10): the progress values of one
raster evaluation are strictly increasing, each lies in (0, 1], and every
progress message precedes the single done message. -/
theorem progress_strictly_increasing (h_proj : ℕ) (h10 : 10 ≤ h_proj) :
    (progressValues h_proj).Chain' (· < ·) ∧
    (∀ v ∈ progressValues h_proj, 0 < v ∧ v ≤ 1) ∧
    workerMessages h_proj =
      ((progressValues h_proj).map WorkerMsg.progress) ++ [WorkerMsg.done] := by
  have hq : (0 : ℚ) < (h_proj : ℚ) := by exact_mod_cast show 0 < h_proj by omega
  refine ⟨?_, ?_, rfl⟩
  · simp only [progressValues, chunkEnd, chunkSize, List.range_succ, List.range_zero,
      List.map_append, List.map_cons, List.map_nil, List.nil_append, List.cons_append]
    norm_num [List.chain'_cons]
    refine ⟨?_, ?_, ?_, ?_, ?_, ?_, ?_, ?_, ?_⟩ <;>
      (apply div_lt_div_of_pos_right ?_ hq) <;>
      · norm_cast
        omega
  · intro v hv
    simp only [progressValues, List.mem_map, List.mem_range] at hv
    obtain ⟨i, hi, rfl⟩ := hv
    have hle : chunkEnd h_proj i ≤ h_proj := by
      unfold chunkEnd chunkSize
      split
      · omega
      · have h1 : i + 1 ≤ 10 := by omega
        have h2 := Nat.div_mul_le_self h_proj 10
        calc (i + 1) * (h_proj / 10) ≤ 10 * (h_proj / 10) :=
              Nat.mul_le_mul_right _ (by omega)
          _ ≤ h_proj := by omega
    have hpos : 1 ≤ chunkEnd h_proj i := by
      unfold chunkEnd chunkSize
      split
      · omega
      · have h1 : 1 ≤ h_proj / 10 := by omega
        nlinarith
    constructor
    · apply div_pos _ hq
      exact_mod_cast hpos
    · rw [div_le_one hq]
      exact_mod_cast hle

/-- Witness for C6 (amended) at outputHeight 600. -/
theorem progress_strictly_increasing_witness :
    (progressValues 600).Chain' (· < ·) ∧
    (∀ v ∈ progressValues 600, 0 < v ∧ v ≤ 1) ∧
    workerMessages 600 =
      ((progressValues 600).map WorkerMsg.progress) ++ [WorkerMsg.done] :=
  progress_strictly_increasing 600 (by norm_num)

/-- Counterexample to claim C2 as stated: at the rotated point (1, 0, 0) with
r = 1 and a 400 by 200 source, the worker computes source pixel (100, 200),
while the spec's literal step-4 formulas (which omit the scaling by the source
dimensions inside round) give (1, 1). -/
theorem step4_literal_formula_fails :
    getPixOnImg ⟨1, 0, 0⟩ 1 200 400 = (100, 200) ∧
    (specStep4RowLiteral ⟨1, 0, 0⟩ 1 200, specStep4ColLiteral ⟨1, 0, 0⟩ 400) = (1, 1) ∧
    ((100 : ℤ), (200 : ℤ)) ≠ ((1 : ℤ), (1 : ℤ)) := by
  have hatan : atan2 0 1 = 0 := atan2_zero_nonneg 1 (by norm_num)
  refine ⟨?_, ?_, by decide⟩
  · simp only [getPixOnImg]
    norm_num
    constructor
    · rw [show π / 2 / π = (1/2 : ℝ) from by field_simp; ring]
      norm_num [jround]
      decide
    · rw [hatan]
      norm_num [jround]
      decide
  · simp only [specStep4RowLiteral, specStep4ColLiteral]
    norm_num
    constructor
    · rw [show π / 2 / π = (1/2 : ℝ) from by field_simp; ring]
      norm_num [jround]
      decide
    · rw [hatan]
      norm_num [jround]
      decide

/-- Claim C2 (amended: the latitude and longitude fractions are scaled by
sourceHeight and sourceWidth inside round): for every rotated point, radius and
source size, the worker's source coordinates are exactly
round((acos(z/r)/pi) * sourceHeight) mod sourceHeight and
round((atan2(y,x)/(2 pi) + 0.5) * sourceWidth) mod sourceWidth,
with z clamped above at r. -/
theorem getPixOnImg_eq_scaled_formulas (point : Vec3) (r : ℝ) (h_img w_img : ℕ) :
    getPixOnImg point r h_img w_img =
      (specStep4RowScaled point r h_img, specStep4ColScaled point w_img) := rfl

/-- Claim C3: for every parameter set with positive scale and source
dimensions and every output pixel, the source coordinate the raster evaluator
computes lies in [0, sourceHeight) x [0, sourceWidth), and the byte index of
the per-pixel copy in processChunk stays inside the source buffer. -/
theorem raster_coord_in_bounds (h_img w_img h_proj w_proj y x : ℕ)
    (scale alpha beta gamma offset_hor offset_ver : ℝ)
    (hscale : 0 < scale) (hh : 0 < h_img) (hw : 0 < w_img) :
    0 ≤ (projection (y, x) (radius h_proj w_proj scale) h_img w_img h_proj w_proj
          offset_hor offset_ver (rot_mat alpha beta gamma)).1 ∧
    (projection (y, x) (radius h_proj w_proj scale) h_img w_img h_proj w_proj
          offset_hor offset_ver (rot_mat alpha beta gamma)).1 < h_img ∧
    0 ≤ (projection (y, x) (radius h_proj w_proj scale) h_img w_img h_proj w_proj
          offset_hor offset_ver (rot_mat alpha beta gamma)).2 ∧
    (projection (y, x) (radius h_proj w_proj scale) h_img w_img h_proj w_proj
          offset_hor offset_ver (rot_mat alpha beta gamma)).2 < w_img ∧
    0 ≤ ((projection (y, x) (radius h_proj w_proj scale) h_img w_img h_proj w_proj
          offset_hor offset_ver (rot_mat alpha beta gamma)).1 * w_img +
         (projection (y, x) (radius h_proj w_proj scale) h_img w_img h_proj w_proj
          offset_hor offset_ver (rot_mat alpha beta gamma)).2) * 4 ∧
    ((projection (y, x) (radius h_proj w_proj scale) h_img w_img h_proj w_proj
          offset_hor offset_ver (rot_mat alpha beta gamma)).1 * w_img +
     (projection (y, x) (radius h_proj w_proj scale) h_img w_img h_proj w_proj
          offset_hor offset_ver (rot_mat alpha beta gamma)).2) * 4 + 3
       < (h_img * w_img) * 4 := by
  obtain ⟨h1, h2, h3, h4⟩ :=
    getPixOnImg_mem
      (axisRotate
        (getPointOnSphere
          ⟨(y : ℝ) + (offset_ver - 1/2) * (h_proj : ℝ),
           (x : ℝ) + (offset_hor - 1/2) * (w_proj : ℝ), 0⟩
          (radius h_proj w_proj scale))
        (rot_mat alpha beta gamma))
      (radius h_proj w_proj scale) h_img w_img hh hw
  obtain ⟨h5, h6⟩ := index_in_bounds h1 h2 h3 h4
  exact ⟨h1, h2, h3, h4, h5, h6⟩

/-- Witness for C3 with the default parameters at output pixel (0, 0). -/
theorem raster_coord_in_bounds_witness :
    0 ≤ (projection (0, 0) (radius 600 800 1) 200 400 600 800
          (1/2) (1/2) (rot_mat 0 0 0)).1 ∧
    (projection (0, 0) (radius 600 800 1) 200 400 600 800
          (1/2) (1/2) (rot_mat 0 0 0)).1 < 200 ∧
    0 ≤ (projection (0, 0) (radius 600 800 1) 200 400 600 800
          (1/2) (1/2) (rot_mat 0 0 0)).2 ∧
    (projection (0, 0) (radius 600 800 1) 200 400 600 800
          (1/2) (1/2) (rot_mat 0 0 0)).2 < 400 ∧
    0 ≤ ((projection (0, 0) (radius 600 800 1) 200 400 600 800
          (1/2) (1/2) (rot_mat 0 0 0)).1 * 400 +
         (projection (0, 0) (radius 600 800 1) 200 400 600 800
          (1/2) (1/2) (rot_mat 0 0 0)).2) * 4 ∧
    ((projection (0, 0) (radius 600 800 1) 200 400 600 800
          (1/2) (1/2) (rot_mat 0 0 0)).1 * 400 +
     (projection (0, 0) (radius 600 800 1) 200 400 600 800
          (1/2) (1/2) (rot_mat 0 0 0)).2) * 4 + 3 < (200 * 400) * 4 :=
  raster_coord_in_bounds 200 400 600 800 0 0 1 0 0 0 (1/2) (1/2)
    (by norm_num) (by norm_num) (by norm_num)

theorem solidRed_data_at (idx : ℤ) (h0 : 0 ≤ idx) (h1 : idx < 320000) :
    (solidRed 400 200).data idx = if idx % 4 = 0 ∨ idx % 4 = 3 then 255 else 0 := by
  simp only [solidRed]
  rw [if_pos ⟨h0, by push_cast; linarith⟩]

/-- Claim C4: with the default 800 by 600 output, scale 1, zero angles,
centered offsets, and a 400 by 200 solid red source, every output pixel of the
raster evaluator is (255, 0, 0, 255). -/
theorem solid_red_scenario (y x : ℕ) (hy : y < 600) (hx : x < 800) :
    outputPixel (solidRed 400 200) 600 800 1 0 0 0 (1/2) (1/2) y x 0 = 255 ∧
    outputPixel (solidRed 400 200) 600 800 1 0 0 0 (1/2) (1/2) y x 1 = 0 ∧
    outputPixel (solidRed 400 200) 600 800 1 0 0 0 (1/2) (1/2) y x 2 = 0 ∧
    outputPixel (solidRed 400 200) 600 800 1 0 0 0 (1/2) (1/2) y x 3 = 255 := by
  obtain ⟨h1, h2, h3, h4⟩ :=
    getPixOnImg_mem
      (axisRotate
        (getPointOnSphere
          ⟨(y : ℝ) + ((1 : ℝ)/2 - 1/2) * (600 : ℕ),
           (x : ℝ) + ((1 : ℝ)/2 - 1/2) * (800 : ℕ), 0⟩
          (radius 600 800 1))
        (rot_mat 0 0 0))
      (radius 600 800 1) 200 400 (by norm_num) (by norm_num)
  set pix := projection (y, x) (radius 600 800 1) 200 400 600 800 (1/2) (1/2) (rot_mat 0 0 0)
    with hpix
  have h1' : 0 ≤ pix.1 := h1
  have h2' : pix.1 < 200 := by exact_mod_cast h2
  have h3' : 0 ≤ pix.2 := h3
  have h4' : pix.2 < 400 := by exact_mod_cast h4
  have hch : ∀ c : ℤ, 0 ≤ c → c < 4 →
      outputPixel (solidRed 400 200) 600 800 1 0 0 0 (1/2) (1/2) y x c.toNat
        = if c = 0 ∨ c = 3 then 255 else 0 := by
    intro c hc0 hc4
    have hidx0 : 0 ≤ (pix.1 * 400 + pix.2) * 4 + c := by nlinarith
    have hidx1 : (pix.1 * 400 + pix.2) * 4 + c < 320000 := by nlinarith
    have hcast : ((c.toNat : ℤ)) = c := Int.toNat_of_nonneg hc0
    show (solidRed 400 200).data ((pix.1 * (400 : ℕ) + pix.2) * 4 + (c.toNat : ℤ))
        = if c = 0 ∨ c = 3 then 255 else 0
    rw [hcast]
    push_cast
    rw [solidRed_data_at _ hidx0 (by push_cast; linarith)]
    have hm : ((pix.1 * 400 + pix.2) * 4 + c) % 4 = c := by
      rw [add_comm, mul_comm (pix.1 * 400 + pix.2) 4, Int.add_mul_emod_self_left]
      exact Int.emod_eq_of_lt hc0 hc4
    rw [hm]
  refine ⟨?_, ?_, ?_, ?_⟩
  · have := hch 0 (by norm_num) (by norm_num)
    norm_num at this
    exact this
  · have := hch 1 (by norm_num) (by norm_num)
    norm_num at this
    exact this
  · have := hch 2 (by norm_num) (by norm_num)
    norm_num at this
    exact this
  · have := hch 3 (by norm_num) (by norm_num)
    norm_num at this
    exact this

/-- Witness for C4 at output pixel (0, 0). -/
theorem solid_red_scenario_witness :
    outputPixel (solidRed 400 200) 600 800 1 0 0 0 (1/2) (1/2) 0 0 0 = 255 ∧
    outputPixel (solidRed 400 200) 600 800 1 0 0 0 (1/2) (1/2) 0 0 1 = 0 ∧
    outputPixel (solidRed 400 200) 600 800 1 0 0 0 (1/2) (1/2) 0 0 2 = 0 ∧
    outputPixel (solidRed 400 200) 600 800 1 0 0 0 (1/2) (1/2) 0 0 3 = 255 :=
  solid_red_scenario 0 0 (by norm_num) (by norm_num)

/-- Claim C10: for every radius r > 0 and every fragment, the shader's mapped
texture coordinate lies in [0,1] on both axes (z is clamped to [-r, r] and
acos lands in [0, pi]; atan2 lands in (-pi, pi]), so the discard branch of
main is never taken and main always returns the supersampled color. -/
theorem fragment_never_discards (tex : ℝ × ℝ → Fin 4 → ℝ) (vTex res offset : ℝ × ℝ)
    (rotation : Vec3) (scale r : ℝ) (hr : 0 < r) :
    (0 ≤ (shaderImgCoord vTex res offset rotation scale r).1 ∧
     (shaderImgCoord vTex res offset rotation scale r).1 ≤ 1 ∧
     0 ≤ (shaderImgCoord vTex res offset rotation scale r).2 ∧
     (shaderImgCoord vTex res offset rotation scale r).2 ≤ 1) ∧
    ¬ shaderDiscards (shaderImgCoord vTex res offset rotation scale r) ∧
    shaderMain tex vTex res offset rotation scale r =
      some (sampleTexture tex res (shaderImgCoord vTex res offset rotation scale r)) := by
  obtain ⟨h1, h2, h3, h4⟩ :=
    shaderGetPixOnImg_mem
      (axisRotate
        (projectToSphere (vTex.1 * res.1, vTex.2 * res.2) res offset scale)
        (computeRotationMatrix rotation)) r
  have hb : 0 ≤ (shaderImgCoord vTex res offset rotation scale r).1 ∧
      (shaderImgCoord vTex res offset rotation scale r).1 ≤ 1 ∧
      0 ≤ (shaderImgCoord vTex res offset rotation scale r).2 ∧
      (shaderImgCoord vTex res offset rotation scale r).2 ≤ 1 := ⟨h1, h2, h3, h4⟩
  have hnd : ¬ shaderDiscards (shaderImgCoord vTex res offset rotation scale r) := by
    simp only [shaderDiscards, not_or, not_lt]
    exact ⟨hb.1, hb.2.2.1, hb.2.1, hb.2.2.2⟩
  refine ⟨hb, hnd, ?_⟩
  simp only [shaderMain]
  rw [if_neg hnd]

/-- Witness for C10 at the default uniforms with a black texture. -/
theorem fragment_never_discards_witness :
    (0 ≤ (shaderImgCoord (0, 0) (800, 600) (1/2, 1/2) ⟨0, 0, 0⟩ 1 60).1 ∧
     (shaderImgCoord (0, 0) (800, 600) (1/2, 1/2) ⟨0, 0, 0⟩ 1 60).1 ≤ 1 ∧
     0 ≤ (shaderImgCoord (0, 0) (800, 600) (1/2, 1/2) ⟨0, 0, 0⟩ 1 60).2 ∧
     (shaderImgCoord (0, 0) (800, 600) (1/2, 1/2) ⟨0, 0, 0⟩ 1 60).2 ≤ 1) ∧
    ¬ shaderDiscards (shaderImgCoord (0, 0) (800, 600) (1/2, 1/2) ⟨0, 0, 0⟩ 1 60) ∧
    shaderMain (fun _ _ => 0) (0, 0) (800, 600) (1/2, 1/2) ⟨0, 0, 0⟩ 1 60 =
      some (sampleTexture (fun _ _ => 0) (800, 600)
        (shaderImgCoord (0, 0) (800, 600) (1/2, 1/2) ⟨0, 0, 0⟩ 1 60)) :=
  fragment_never_discards (fun _ _ => 0) (0, 0) (800, 600) (1/2, 1/2) ⟨0, 0, 0⟩ 1 60
    (by norm_num)

/-- Counterexample to claim C7 as stated: no parameter set drives the
fragment evaluator's mapped texture coordinate to (1.5, 0.5), because the
first coordinate atan2/(2 pi) + 0.5 never exceeds 1. -/
theorem no_params_reach_three_halves :
    ¬ ∃ (vTex res offset : ℝ × ℝ) (rotation : Vec3) (scale r : ℝ),
        shaderImgCoord vTex res offset rotation scale r = (3/2, 1/2) := by
  rintro ⟨vTex, res, offset, rotation, scale, r, h⟩
  have hb : (shaderImgCoord vTex res offset rotation scale r).1 ≤ 1 :=
    (shaderGetPixOnImg_mem
      (axisRotate
        (projectToSphere (vTex.1 * res.1, vTex.2 * res.2) res offset scale)
        (computeRotationMatrix rotation)) r).2.1
  rw [h] at hb
  norm_num at hb

/-- Claim C7 (amended): the mapped texture coordinate always lies in [0,1]
on both axes and in particular never equals (1.5, 0.5), so no fragment is
ever discarded, while the raster evaluator always produces a valid in-bounds
wrapped source pixel. -/
theorem coord_unit_square_raster_wraps (vTex res offset : ℝ × ℝ) (rotation point : Vec3)
    (scale r r2 : ℝ) (h_img w_img : ℕ) (hh : 0 < h_img) (hw : 0 < w_img) :
    (0 ≤ (shaderImgCoord vTex res offset rotation scale r).1 ∧
     (shaderImgCoord vTex res offset rotation scale r).1 ≤ 1 ∧
     0 ≤ (shaderImgCoord vTex res offset rotation scale r).2 ∧
     (shaderImgCoord vTex res offset rotation scale r).2 ≤ 1) ∧
    shaderImgCoord vTex res offset rotation scale r ≠ (3/2, 1/2) ∧
    (0 ≤ (getPixOnImg point r2 h_img w_img).1 ∧
     (getPixOnImg point r2 h_img w_img).1 < h_img ∧
     0 ≤ (getPixOnImg point r2 h_img w_img).2 ∧
     (getPixOnImg point r2 h_img w_img).2 < w_img) := by
  have hb :=
    shaderGetPixOnImg_mem
      (axisRotate
        (projectToSphere (vTex.1 * res.1, vTex.2 * res.2) res offset scale)
        (computeRotationMatrix rotation)) r
  refine ⟨hb, ?_, getPixOnImg_mem point r2 h_img w_img hh hw⟩
  intro h
  have h1 : (shaderImgCoord vTex res offset rotation scale r).1 ≤ 1 := hb.2.1
  rw [h] at h1
  norm_num at h1

/-- Witness for C7 (amended) at the default uniforms. -/
theorem coord_unit_square_raster_wraps_witness :
    (0 ≤ (shaderImgCoord (0, 0) (800, 600) (1/2, 1/2) ⟨0, 0, 0⟩ 1 60).1 ∧
     (shaderImgCoord (0, 0) (800, 600) (1/2, 1/2) ⟨0, 0, 0⟩ 1 60).1 ≤ 1 ∧
     0 ≤ (shaderImgCoord (0, 0) (800, 600) (1/2, 1/2) ⟨0, 0, 0⟩ 1 60).2 ∧
     (shaderImgCoord (0, 0) (800, 600) (1/2, 1/2) ⟨0, 0, 0⟩ 1 60).2 ≤ 1) ∧
    shaderImgCoord (0, 0) (800, 600) (1/2, 1/2) ⟨0, 0, 0⟩ 1 60 ≠ (3/2, 1/2) ∧
    (0 ≤ (getPixOnImg ⟨0, 0, 0⟩ 1 200 400).1 ∧
     (getPixOnImg ⟨0, 0, 0⟩ 1 200 400).1 < 200 ∧
     0 ≤ (getPixOnImg ⟨0, 0, 0⟩ 1 200 400).2 ∧
     (getPixOnImg ⟨0, 0, 0⟩ 1 200 400).2 < 400) :=
  coord_unit_square_raster_wraps (0, 0) (800, 600) (1/2, 1/2) ⟨0, 0, 0⟩ ⟨0, 0, 0⟩
    1 60 1 200 400 (by norm_num) (by norm_num)

/-- Claim C1 (failing-input evaluation): at the default parameters with zero
rotation, output pixel (row 0, col 100) maps to source column 300 in the
raster evaluator, while the fragment shader maps the same pixel (vTextureCoord
(100/800, 0)) to continuous texture column 0.5, whose nearest 400-wide source
column is 200, not 300 (the two paths swap the roles of the plane axes in
atan2); moreover the shader's rotation matrix is the transpose of the
worker's, differing already at alpha = pi/2. -/
theorem raster_fragment_divergence :
    (projection (0, 100) (radius 600 800 1) 200 400 600 800 (1/2) (1/2) (rot_mat 0 0 0)).2
        = 300 ∧
    (shaderImgCoord (100/800, 0) (800, 600) (1/2, 1/2) ⟨0, 0, 0⟩ 1 60).1 = 1/2 ∧
    Int.tmod (jround ((1/2 : ℝ) * (400 : ℕ))) 400 = 200 ∧
    ((300 : ℤ) ≠ 200) ∧
    computeRotationMatrix ⟨π/2, 0, 0⟩ ≠ rot_mat (π/2) 0 0 := by
  refine ⟨?_, ?_, ?_, by decide, ?_⟩
  · rw [rot_mat_zero, show radius 600 800 1 = 60 from by simp [radius]; norm_num]
    simp only [projection]
    norm_num
    have hsph : getPointOnSphere ⟨0, 100, 0⟩ 60 = ⟨0, 900/17, -480/17⟩ := by
      simp only [getPointOnSphere]
      norm_num [Vec3.ext_iff]
    rw [hsph, axisRotate_id]
    simp only [getPixOnImg]
    norm_num
    rw [atan2_pos_imag _ (by norm_num)]
    rw [show π / 2 / (2 * π) + 1/2 = 3/4 from by field_simp; ring]
    norm_num [jround]
    decide
  · simp only [shaderImgCoord, computeRotationMatrix_zero]
    have hsph : projectToSphere (100/800 * 800, 0 * 600) (800, 600) (1/2, 1/2) 1
        = ⟨900/17, 0, -480/17⟩ := by
      simp only [projectToSphere]
      norm_num [Vec3.ext_iff]
    rw [hsph, axisRotate_id]
    simp only [shaderGetPixOnImg]
    rw [atan2_zero_nonneg _ (by norm_num)]
    norm_num
  · norm_num [jround]
    decide
  · intro h
    have h12 := congrArg Mat3.a12 h
    simp only [computeRotationMatrix, glslMat3, rot_mat] at h12
    rw [Real.cos_pi_div_two, Real.sin_pi_div_two] at h12
    norm_num at h12
